import Mathlib

set_option maxHeartbeats 1000000
set_option autoImplicit false

/-!
Verification of the natural-language specification of the AppSec WAF callback
(`packages/dd-trace/src/appsec/callbacks/ddwaf.js`) of this repository against
its behavior. The implementation file itself is not part of the staged
sources; every definition below is modelled from the specification's component
design (Subscription Gateway, Execution Context Cache, Budgeted Executor,
Result Interpreter, Engine Lifecycle) and validated against the concrete
behavior asserted by the staged test suite
(`packages/dd-trace/test/appsec/callbacks/ddwaf.spec.js`), which pins the
observable effects of every operation on concrete inputs.

The embedding is a state machine over `WafState`: engine-context creation,
disposal, evaluation calls, log lines, attack reports and teardown counters
are recorded as explicit ledgers, so that each claim about an operation's
effects becomes a statement about the state it returns.
-/

namespace DDWaf

/-- JS-like values carried in the address-data mapping handed to the engine:
strings, numbers, and nested objects (association lists of fields). -/
inductive JSValue where
  | str : String → JSValue
  | num : Int → JSValue
  | obj : List (String × JSValue) → JSValue

/-- An opaque per-request identity (`store.get('context')`), used only as a
cache key. -/
abbrev Ctx := Nat

/-- The address-data mapping (`params`) passed to `action` and to the
engine's evaluate call, as an ordered association list. -/
abbrev Params := List (String × JSValue)

/-- Modelled from the spec: the engine's raw `AnalysisResult` — an action
classification plus an optional serialized list of rule matches
(`{ action, data }` in the test suite's stubbed engine). -/
structure RunResult where
  action : String
  data : Option String

/-- Observable state of the WAF callback and its collaborators. Handles are
numbered by a fresh counter; `created`, `disposedIds`, `runs`, `logs` and
`reports` are append-only ledgers of the side effects the test suite
observes through its spies. -/
structure WafState where
  /-- Next fresh handle id handed out by the engine's `createContext`. -/
  nextId : Nat
  /-- Handle ids created so far, oldest first. -/
  created : List Nat
  /-- Handle ids whose `dispose()` has been called. -/
  disposedIds : List Nat
  /-- The per-request execution context cache (`wafContextCache`):
  request-context key to handle id. -/
  cache : List (Ctx × Nat)
  /-- Evaluate calls issued to the engine: (handle id, address data, budget). -/
  runs : List (Nat × Params × Nat)
  /-- Log lines emitted through `log.error`, oldest first. -/
  logs : List String
  /-- Reports forwarded to the reporting collaborator:
  (raw serialized match payload, the store argument passed through). -/
  reports : List (String × Option (Option Ctx))
  /-- How many times the engine instance itself (`this.ddwaf`) was disposed. -/
  engineDisposeCount : Nat
  /-- How many times the gateway's per-request `clear` was invoked. -/
  gatewayClearCount : Nat

/-- Modelled from the spec: the fixed CPU-time budget for one evaluation,
in microseconds ("observed default 5000 microseconds"). -/
def DEFAULT_MAX_BUDGET : Nat := 5000

/-- The address semantically representing the numeric HTTP status code. -/
def statusAddress : String := "server.response.status"

/-- The fixed diagnostic message logged when the engine's evaluate call
raises a fault. -/
def wafErrorMsg : String := "Error while running the AppSec WAF"

/-- The fixed message logged when loading the native engine fails. -/
def loadErrorMsg : String :=
  "AppSec could not load native package. In-app WAF features will not be available."

/-- Lookup of the first binding of a key in an address-data mapping. -/
def lookupVal (k : String) : Params → Option JSValue
  | [] => none
  | (k2, v) :: rest => if k2 = k then some v else lookupVal k rest

/-- One entry of the status-code cast: a binding of the status address is
replaced by the string representation of the status, every other binding is
passed through unchanged. -/
def castEntry (n : Int) (kv : String × JSValue) : String × JSValue :=
  if kv.1 = statusAddress then (statusAddress, JSValue.str (toString n)) else kv

/-- Modelled from the spec: the Budgeted Executor's preprocessing — a numeric
value bound to the status-code address is coerced to its string
representation before submission; all other values pass through unchanged,
including nested structures. -/
def castStatusCode (params : Params) : Params :=
  match lookupVal statusAddress params with
  | some (JSValue.num n) => params.map (castEntry n)
  | _ => params

/-- Lookup in the per-request execution context cache. -/
def cacheLookup (k : Ctx) : List (Ctx × Nat) → Option Nat
  | [] => none
  | (k2, h) :: rest => if k2 = k then some h else cacheLookup k rest

/-- The engine's `createContext`: hands out a fresh handle id. -/
def createHandle (st : WafState) : Nat × WafState :=
  (st.nextId, { st with nextId := st.nextId + 1, created := st.created ++ [st.nextId] })

/-- Modelled from the spec: the Execution Context Cache step of `action`
(§4.2), with the cache-update behavior the test suite asserts. With a
present request context: a cached, still-alive handle is reused; a cached
but disposed handle is replaced by a fresh handle that is *not* written back
to the cache; a cache miss creates a fresh handle and caches it. With an
absent store or absent context entry, a fresh transient handle is created
and never cached. -/
def obtainHandle (st : WafState) (store : Option (Option Ctx)) : Nat × WafState :=
  match store with
  | some (some key) =>
    match cacheLookup key st.cache with
    | some h =>
      if h ∈ st.disposedIds then createHandle st
      else (h, st)
    | none =>
      let p := createHandle st
      (p.1, { p.2 with cache := (key, p.1) :: p.2.cache })
  | _ => createHandle st

/-- Modelled from the spec: the Result Interpreter's `apply` (§4.4) — when
the serialized match list is absent or empty, no reporting call is made;
otherwise the raw payload and the store are forwarded unchanged to the
reporting collaborator exactly once. -/
def applyResult (st : WafState) (result : RunResult) (store : Option (Option Ctx)) :
    WafState :=
  match result.data with
  | some d =>
    if d ≠ "" ∧ d ≠ "[]" then { st with reports := st.reports ++ [(d, store)] }
    else st
  | none => st

/-- Modelled from the spec: the callback's `action(params, store)` (§4.2,
§4.3) — obtain a handle through the cache, cast the status code, submit the
address data to the engine under the fixed budget, on success forward the
result to the Result Interpreter, on an engine fault log the fixed message
and the fault and yield no result, and dispose the used handle afterwards.
The engine's evaluate behavior is a parameter `eval` so that both outcomes
can be analyzed. -/
def action (eval : Params → Except String RunResult) (st : WafState) (params : Params)
    (store : Option (Option Ctx)) : WafState :=
  let p := obtainHandle st store
  let params2 := castStatusCode params
  let st2 := { p.2 with runs := p.2.runs ++ [(p.1, params2, DEFAULT_MAX_BUDGET)] }
  let st3 :=
    match eval params2 with
    | Except.ok r => applyResult st2 r store
    | Except.error e => { st2 with logs := st2.logs ++ [wafErrorMsg, e] }
  { st3 with disposedIds := st3.disposedIds ++ [p.1] }

/-- Modelled from the spec: `clear()` — disposes the engine instance,
replaces the per-request context cache with a fresh empty one, and invokes
the gateway's per-request clear. -/
def clear (st : WafState) : WafState :=
  { st with
    cache := []
    engineDisposeCount := st.engineDisposeCount + 1
    gatewayClearCount := st.gatewayClearCount + 1 }

/-- Modelled from the spec: the rule engine handed back by `load` — a black
box exposing `createContext` and `dispose` (§6). -/
structure Engine where
  engineId : Nat
deriving DecidableEq

/-- The engine's `createContext` operation, exposed by every loaded engine. -/
def Engine.createContext (_ : Engine) (st : WafState) : Nat × WafState :=
  createHandle st

/-- The engine's `dispose` operation, exposed by every loaded engine. -/
def Engine.dispose (_ : Engine) (st : WafState) : WafState :=
  { st with engineDisposeCount := st.engineDisposeCount + 1 }

/-- One condition of a rule: the list of input address names
(`condition.parameters.inputs[].address`). -/
structure Condition where
  inputs : List String
deriving DecidableEq

/-- One rule of the ruleset: its list of conditions. -/
structure Rule where
  conditions : List Condition
deriving DecidableEq

/-- A ruleset (`rules.rules`). -/
abbrev RuleSet := List Rule

/-- Modelled from the spec: `load(rules)` through an abstract engine
constructor (the native engine is an external collaborator) — on failure the
fixed message is logged and the engine's diagnostic propagates; on success
the engine is returned and nothing is logged. The second component is the
list of log lines emitted. -/
def loadDDWAF (engineNew : RuleSet → Except String Engine) (rules : RuleSet) :
    Except String Engine × List String :=
  match engineNew rules with
  | Except.ok e => (Except.ok e, [])
  | Except.error msg => (Except.error msg, [loadErrorMsg])

/-- The characters of an address name up to (excluding) the first `:`
(the `address.split(':')[0]` normalization attested by the test suite). -/
def stripChars : List Char → List Char
  | [] => []
  | c :: rest => if c = ':' then [] else c :: stripChars rest

/-- Strip an address name at the first `:`. -/
def stripAddress (a : String) : String :=
  String.mk (stripChars a.data)

/-- Modelled from the spec: the Address Registry — the static set of
recognized input-address names, populated with the names the staged test
suite attests (`server.request.*`, `server.response.status`). -/
def validAddresses : List String :=
  ["server.request.headers.no_cookies",
   "server.request.uri.raw",
   "server.request.method",
   "server.response.status"]

/-- All input address names of a ruleset in source order, each stripped at
the first `:`. -/
def allInputAddresses (rules : RuleSet) : List String :=
  rules.flatMap fun r => r.conditions.flatMap fun c => c.inputs.map stripAddress

/-- The subscription-building scan over the stream of stripped input
addresses: an address already seen, or not recognized by the Address
Registry, is skipped; every other address is kept once, in first-seen
order. -/
def dedupValid : List String → List String → List String
  | [], _ => []
  | a :: rest, seen =>
    if a ∈ validAddresses ∧ a ∉ seen then a :: dedupValid rest (a :: seen)
    else dedupValid rest seen

/-- One registered subscription entry (`Gateway.manager.addSubscription`
argument): an address list and the identity of the shared callback. -/
structure Subscription where
  addresses : List String
  callbackId : Nat
deriving DecidableEq

/-- Modelled from the spec: `buildSubscriptions` — the constructor derives
from the ruleset the addresses to subscribe, registering each first-seen
recognized address as one singleton entry, all entries sharing the single
callback closure (callback id 0), exactly as the test suite asserts of the
`addSubscription` call sequence. -/
def buildSubscriptions (rules : RuleSet) : List Subscription :=
  (dedupValid (allInputAddresses rules) []).map fun a => ⟨[a], 0⟩

/-- The ruleset fixture of the test suite's constructor test: two rules,
three conditions, with `:`-suffixed addresses, repeated addresses and one
unrecognized address. -/
def testRules : RuleSet :=
  [{ conditions :=
      [{ inputs :=
          ["server.request.headers.no_cookies:user-agent",
           "server.request.uri.raw",
           "server.request.headers.no_cookies"] },
       { inputs :=
          ["server.request.headers.no_cookies",
           "server.request.headers.no_cookies:user-agent",
           "server.request.uri.raw"] }] },
   { conditions :=
      [{ inputs :=
          ["invalid_address",
           "server.request.headers.no_cookies",
           "server.request.headers.no_cookies:user-agent",
           "server.request.method"] }] }]

/-- The empty starting state. -/
def st0 : WafState :=
  { nextId := 0, created := [], disposedIds := [], cache := [], runs := []
    logs := [], reports := [], engineDisposeCount := 0, gatewayClearCount := 0 }

/-- A state in which handle 0 exists, is alive, and is cached for request
context 0 (the test suite's "should get wafContext from cache" setup). -/
def stCachedAlive : WafState :=
  { st0 with nextId := 1, created := [0], cache := [(0, 0)] }

/-- A state in which handle 0 exists, is already disposed, and is cached for
request context 5 (the test suite's "found wafContext is disposed" setup). -/
def stCachedDisposed : WafState :=
  { st0 with nextId := 1, created := [0], disposedIds := [0], cache := [(5, 0)] }

/-- A successfully evaluating engine, returning the test suite's stubbed
result `{ action: 'monitor', data: '[]' }`. -/
def okEval : Params → Except String RunResult :=
  fun _ => Except.ok { action := "monitor", data := some "[]" }

/-- An engine whose evaluate call raises the test suite's fault. -/
def failEval : Params → Except String RunResult :=
  fun _ => Except.error "Empty params"

/-- The test suite's plain address data `{ a: 1, b: 2 }`. -/
def exampleParams : Params :=
  [("a", JSValue.num 1), ("b", JSValue.num 2)]

/-- The test suite's status-cast address data: a string, a numeric status
code, another number, and a nested object. -/
def statusParams : Params :=
  [("string", JSValue.str "/test"),
   ("server.response.status", JSValue.num 404),
   ("number", JSValue.num 1337),
   ("object", JSValue.obj [("a", JSValue.num 1), ("b", JSValue.str "2")])]

/-- A concrete engine constructor for exercising `loadDDWAF`: the empty
ruleset is malformed (the engine raises the test suite's diagnostic), every
other ruleset loads. -/
def demoEngineNew : RuleSet → Except String Engine :=
  fun rules =>
    if rules = [] then Except.error "Invalid rules" else Except.ok { engineId := 7 }

/-! ## Frame lemmas for the Result Interpreter and the handle-obtaining step -/

/-- `applyResult` only ever appends to the report ledger: every other state
component is untouched. -/
theorem applyResult_frame (st : WafState) (r : RunResult) (s : Option (Option Ctx)) :
    (applyResult st r s).nextId = st.nextId ∧
    (applyResult st r s).created = st.created ∧
    (applyResult st r s).disposedIds = st.disposedIds ∧
    (applyResult st r s).cache = st.cache ∧
    (applyResult st r s).runs = st.runs ∧
    (applyResult st r s).logs = st.logs := by
  unfold applyResult
  cases r.data with
  | none => exact ⟨rfl, rfl, rfl, rfl, rfl, rfl⟩
  | some d =>
    dsimp only
    split <;> exact ⟨rfl, rfl, rfl, rfl, rfl, rfl⟩

/-- Obtaining a handle never disposes anything and never runs, logs or
reports anything. -/
theorem obtainHandle_frame (st : WafState) (store : Option (Option Ctx)) :
    (obtainHandle st store).2.disposedIds = st.disposedIds ∧
    (obtainHandle st store).2.runs = st.runs ∧
    (obtainHandle st store).2.logs = st.logs ∧
    (obtainHandle st store).2.reports = st.reports := by
  unfold obtainHandle createHandle
  rcases store with _ | (_ | key)
  · exact ⟨rfl, rfl, rfl, rfl⟩
  · exact ⟨rfl, rfl, rfl, rfl⟩
  · dsimp only
    cases cacheLookup key st.cache with
    | none => exact ⟨rfl, rfl, rfl, rfl⟩
    | some h =>
      dsimp only
      split <;> exact ⟨rfl, rfl, rfl, rfl⟩

/-- After `action`, exactly the handle chosen for this call has been added
to the disposal ledger. -/
theorem action_disposedIds (eval : Params → Except String RunResult) (st : WafState)
    (params : Params) (store : Option (Option Ctx)) :
    (action eval st params store).disposedIds =
      st.disposedIds ++ [(obtainHandle st store).1] := by
  unfold action
  cases h : eval (castStatusCode params) with
  | ok r =>
    dsimp only
    rw [h]
    dsimp only
    rw [(applyResult_frame _ _ _).2.2.1]
    rw [(obtainHandle_frame st store).1]
  | error e =>
    dsimp only
    rw [h]
    dsimp only
    rw [(obtainHandle_frame st store).1]

/-- `action` submits exactly one evaluate call to the engine: the chosen
handle, the cast address data, the fixed budget. -/
theorem action_runs (eval : Params → Except String RunResult) (st : WafState)
    (params : Params) (store : Option (Option Ctx)) :
    (action eval st params store).runs =
      st.runs ++ [((obtainHandle st store).1, castStatusCode params, DEFAULT_MAX_BUDGET)] := by
  unfold action
  cases h : eval (castStatusCode params) with
  | ok r =>
    dsimp only
    rw [h]
    dsimp only
    rw [(applyResult_frame _ _ _).2.2.2.2.1]
    rw [(obtainHandle_frame st store).2.1]
  | error e =>
    dsimp only
    rw [h]
    dsimp only
    rw [(obtainHandle_frame st store).2.1]

/-- The cache after `action` is whatever the handle-obtaining step left. -/
theorem action_cache (eval : Params → Except String RunResult) (st : WafState)
    (params : Params) (store : Option (Option Ctx)) :
    (action eval st params store).cache = (obtainHandle st store).2.cache := by
  unfold action
  cases h : eval (castStatusCode params) with
  | ok r =>
    dsimp only
    rw [h]
    dsimp only
    rw [(applyResult_frame _ _ _).2.2.2.1]
  | error e =>
    dsimp only
    rw [h]

/-- The creation ledger after `action` is whatever the handle-obtaining step
left. -/
theorem action_created (eval : Params → Except String RunResult) (st : WafState)
    (params : Params) (store : Option (Option Ctx)) :
    (action eval st params store).created = (obtainHandle st store).2.created := by
  unfold action
  cases h : eval (castStatusCode params) with
  | ok r =>
    dsimp only
    rw [h]
    dsimp only
    rw [(applyResult_frame _ _ _).2.1]
  | error e =>
    dsimp only
    rw [h]

/-- Whatever the engine does, the handle used by `action` ends up in the
disposal ledger. -/
theorem action_disposes_handle (eval : Params → Except String RunResult)
    (st : WafState) (params : Params) (store : Option (Option Ctx)) :
    (obtainHandle st store).1 ∈ (action eval st params store).disposedIds := by
  rw [action_disposedIds]
  exact List.mem_append_right _ (List.mem_singleton_self _)

/-- A cached entry whose handle is already disposed makes the
handle-obtaining step fall back to a fresh engine context, leaving the
cache untouched. -/
theorem obtainHandle_stale (st : WafState) (key : Ctx) (h : Nat)
    (hl : cacheLookup key st.cache = some h) (hd : h ∈ st.disposedIds) :
    obtainHandle st (some (some key)) = createHandle st := by
  simp only [obtainHandle]
  rw [hl]
  dsimp only
  rw [if_pos hd]

/-- A cache miss with a present request context makes the handle-obtaining
step create a fresh engine context and store it in the cache keyed by that
context. -/
theorem obtainHandle_miss (st : WafState) (key : Ctx)
    (hl : cacheLookup key st.cache = none) :
    obtainHandle st (some (some key)) =
      (st.nextId,
       { st with
          nextId := st.nextId + 1
          created := st.created ++ [st.nextId]
          cache := (key, st.nextId) :: st.cache }) := by
  simp only [obtainHandle]
  rw [hl]
  rfl

/-! ## Subscription-building lemmas -/

/-- Membership in the address scan: an address is kept exactly when it
occurs in the input stream, is recognized, and was not seen before. -/
theorem mem_dedupValid (a : String) : ∀ (l seen : List String),
    a ∈ dedupValid l seen ↔ a ∈ l ∧ a ∈ validAddresses ∧ a ∉ seen := by
  intro l
  induction l with
  | nil => intro seen; simp [dedupValid]
  | cons b rest ih =>
    intro seen
    unfold dedupValid
    by_cases hab : a = b
    · subst hab
      split
      · simp only [List.mem_cons, ih]
        tauto
      · simp only [List.mem_cons, ih]
        tauto
    · split
      · simp only [List.mem_cons, ih]
        tauto
      · simp only [List.mem_cons, ih]
        tauto

/-- The address scan never keeps an address twice. -/
theorem dedupValid_nodup : ∀ (l seen : List String), (dedupValid l seen).Nodup := by
  intro l
  induction l with
  | nil => intro seen; simp [dedupValid]
  | cons b rest ih =>
    intro seen
    unfold dedupValid
    split
    · refine List.nodup_cons.mpr ⟨?_, ih _⟩
      intro hmem
      have h2 := (mem_dedupValid b rest (b :: seen)).mp hmem
      exact h2.2.2 (List.mem_cons_self _ _)
    · exact ih seen

/-- Over a duplicate-free address list, at most one element is the
singleton containing a given address. -/
theorem countP_singleton_le_one (a : String) :
    ∀ l : List String, l.Nodup → (l.countP fun b => decide (a ∈ [b])) ≤ 1 := by
  intro l
  induction l with
  | nil => intro _; simp
  | cons b rest ih =>
    intro hnd
    simp only [List.countP_cons]
    by_cases hab : a = b
    · subst hab
      have hz : rest.countP (fun b => decide (a ∈ [b])) = 0 := by
        rw [List.countP_eq_zero]
        intro x hx
        simp only [List.mem_singleton, decide_eq_true_eq]
        intro h
        subst h
        exact (List.nodup_cons.mp hnd).1 hx
      have ht : (decide (a ∈ [a]) : Bool) = true := by simp
      rw [hz, ht]
      simp
    · have h1 := ih (List.nodup_cons.mp hnd).2
      have hz : (decide (a ∈ [b]) : Bool) = false := by
        simp only [List.mem_singleton, decide_eq_false_iff_not]
        exact hab
      rw [hz]
      simpa using h1

/-! ## Status-cast lemmas -/

/-- The status cast leaves a binding with any other key as it is. -/
theorem castEntry_ne (n : Int) (kv : String × JSValue) (hne : kv.1 ≠ statusAddress) :
    castEntry n kv = kv := by
  unfold castEntry
  rw [if_neg hne]

/-- After the status cast, the status address is bound to the string
representation of the numeric status it held. -/
theorem lookupVal_cast (n : Int) : ∀ params : Params,
    lookupVal statusAddress params = some (JSValue.num n) →
    lookupVal statusAddress (params.map (castEntry n)) =
      some (JSValue.str (toString n)) := by
  intro params
  induction params with
  | nil => intro h; cases h
  | cons kv rest ih =>
    intro h
    rcases kv with ⟨k, v⟩
    by_cases hk : k = statusAddress
    · subst hk
      have hc : castEntry n (statusAddress, v) = (statusAddress, JSValue.str (toString n)) := by
        unfold castEntry
        rw [if_pos rfl]
      rw [List.map_cons, hc, lookupVal, if_pos rfl]
    · rw [lookupVal, if_neg hk] at h
      rw [List.map_cons, castEntry_ne n (k, v) hk, lookupVal, if_neg hk]
      exact ih h

/-- Every binding with a key other than the status address survives the
status cast unchanged. -/
theorem mem_cast_of_ne (n : Int) (params : Params) (kv : String × JSValue)
    (hmem : kv ∈ params) (hne : kv.1 ≠ statusAddress) :
    kv ∈ params.map (castEntry n) := by
  rw [← castEntry_ne n kv hne]
  exact List.mem_map_of_mem _ hmem

/-! ## The claims -/

/-- C1, counterexample: on the ruleset fixture of the test suite, two
conditions with overlapping (indeed identical) recognized address sets do
*not* merge into one registered entry carrying the union of the sets.
The constructor registers three entries, each holding exactly one address
(`server.request.headers.no_cookies`, `server.request.uri.raw`,
`server.request.method`); no registered entry holds two or more addresses,
so no entry's address set is the union of the overlapping sets. -/
theorem subscriptions_merge_cex :
    ((buildSubscriptions testRules).map Subscription.addresses =
      [["server.request.headers.no_cookies"], ["server.request.uri.raw"],
       ["server.request.method"]]) ∧
    ¬ ∃ s ∈ buildSubscriptions testRules, 2 ≤ s.addresses.length := by
  constructor
  · rfl
  · decide

/-- C1, amended: register calls from subscription building are deduplicated
per address, not merged into union entries: every registered entry holds
exactly one address and shares the single first-created callback (id 0), and
for every address at most one registered entry contains it — so a
triggering address invokes the callback once per request, not once per
original overlapping declaration. -/
theorem subscriptions_dedup (rules : RuleSet) :
    (∀ s ∈ buildSubscriptions rules, s.addresses.length = 1 ∧ s.callbackId = 0) ∧
    ∀ a : String,
      ((buildSubscriptions rules).countP fun s => decide (a ∈ s.addresses)) ≤ 1 := by
  constructor
  · intro s hs
    rcases List.mem_map.mp hs with ⟨b, _, rfl⟩
    exact ⟨rfl, rfl⟩
  · intro a
    unfold buildSubscriptions
    rw [List.countP_map]
    exact countP_singleton_le_one a _ (dedupValid_nodup _ _)

/-- C2, counterexample: a handle obtained from the per-request cache is
*not* left alive after a successful run. Starting from a state whose cache
holds the live handle 0 for context 0, a successful `action` leaves
handle 0 disposed. -/
theorem cached_handle_disposed_cex :
    cacheLookup 0 stCachedAlive.cache = some 0 ∧
    0 ∉ stCachedAlive.disposedIds ∧
    0 ∈ (action okEval stCachedAlive exampleParams (some (some 0))).disposedIds := by
  refine ⟨rfl, by decide, ?_⟩
  rw [action_disposedIds]
  decide

/-- C2, amended: every evaluation disposes its handle afterwards —
transient (no-context) handles and handles obtained from the per-request
cache alike. In particular a live cached handle found for the request
context is the handle used, and it is disposed after the run. -/
theorem every_handle_disposed (eval : Params → Except String RunResult)
    (st : WafState) (params : Params) (store : Option (Option Ctx)) :
    (obtainHandle st store).1 ∈ (action eval st params store).disposedIds ∧
    ∀ key h, store = some (some key) → cacheLookup key st.cache = some h →
      h ∉ st.disposedIds → h ∈ (action eval st params store).disposedIds := by
  refine ⟨action_disposes_handle eval st params store, ?_⟩
  intro key h hst hl hal
  subst hst
  have ho : obtainHandle st (some (some key)) = (h, st) := by
    simp only [obtainHandle]
    rw [hl]
    dsimp only
    rw [if_neg hal]
  have h2 := action_disposes_handle eval st params (some (some key))
  rw [ho] at h2
  exact h2

/-- C2, witness: the amended statement at the cached-alive fixture — the
cache-obtained handle 0 is disposed after the run. -/
theorem every_handle_disposed_witness :
    (obtainHandle stCachedAlive (some (some 0))).1 ∈
      (action okEval stCachedAlive exampleParams (some (some 0))).disposedIds ∧
    0 ∈ (action okEval stCachedAlive exampleParams (some (some 0))).disposedIds :=
  ⟨(every_handle_disposed okEval stCachedAlive exampleParams (some (some 0))).1,
   (every_handle_disposed okEval stCachedAlive exampleParams (some (some 0))).2 0 0
     rfl rfl (by decide)⟩

/-- C3, counterexample: when the cached entry is disposed, the fresh handle
is *not* stored back in the cache. Starting from a cache holding the
disposed handle 0 for context 5, `action` evaluates the fresh handle 1 but
the cache still maps 5 to the old disposed handle 0 afterwards. -/
theorem stale_entry_not_replaced_cex :
    cacheLookup 5 stCachedDisposed.cache = some 0 ∧
    0 ∈ stCachedDisposed.disposedIds ∧
    (action okEval stCachedDisposed exampleParams (some (some 5))).cache = [(5, 0)] ∧
    (action okEval stCachedDisposed exampleParams (some (some 5))).runs =
      [(1, exampleParams, DEFAULT_MAX_BUDGET)] := by
  exact ⟨rfl, by decide, rfl, rfl⟩

/-- C3, amended: a `getOrCreate` step with a present request context whose
cache entry is absent creates a fresh handle from the engine, stores it in
the cache keyed by that context, and evaluates it; a step whose cache entry
reports disposed creates a fresh handle and evaluates only that fresh
handle — the old disposed handle is never evaluated again — but the fresh
handle is *not* stored in the cache: the stale entry remains (it is not
overwritten) until the next `clear()`. Either way the fresh handle is
disposed after the run. -/
theorem stale_or_missing_entry_fresh (eval : Params → Except String RunResult)
    (st : WafState) (params : Params) (key : Ctx) :
    (cacheLookup key st.cache = none →
      (action eval st params (some (some key))).cache = (key, st.nextId) :: st.cache ∧
      (action eval st params (some (some key))).runs =
        st.runs ++ [(st.nextId, castStatusCode params, DEFAULT_MAX_BUDGET)] ∧
      st.nextId ∈ (action eval st params (some (some key))).disposedIds) ∧
    (∀ h, cacheLookup key st.cache = some h → h ∈ st.disposedIds → h < st.nextId →
      (action eval st params (some (some key))).cache = st.cache ∧
      (action eval st params (some (some key))).runs =
        st.runs ++ [(st.nextId, castStatusCode params, DEFAULT_MAX_BUDGET)] ∧
      st.nextId ≠ h ∧
      st.nextId ∈ (action eval st params (some (some key))).disposedIds) := by
  constructor
  · intro hl
    have ho := obtainHandle_miss st key hl
    refine ⟨?_, ?_, ?_⟩
    · rw [action_cache, ho]
    · rw [action_runs, ho]
    · rw [action_disposedIds, ho]
      exact List.mem_append_right _ (List.mem_singleton_self _)
  · intro h hl hd hfresh
    have ho := obtainHandle_stale st key h hl hd
    refine ⟨?_, ?_, ?_, ?_⟩
    · rw [action_cache, ho]; rfl
    · rw [action_runs, ho]; rfl
    · omega
    · rw [action_disposedIds, ho]
      exact List.mem_append_right _ (List.mem_singleton_self _)

/-- C3, witness: the amended statement at concrete fixtures of both cases —
a cache miss for context 1 stores and uses the fresh handle 1, and the
disposed entry for context 5 is left in place while the fresh handle is the
one evaluated and disposed. -/
theorem stale_or_missing_entry_fresh_witness :
    ((action okEval stCachedAlive exampleParams (some (some 1))).cache =
        (1, stCachedAlive.nextId) :: stCachedAlive.cache ∧
      (action okEval stCachedAlive exampleParams (some (some 1))).runs =
        stCachedAlive.runs ++
          [(stCachedAlive.nextId, castStatusCode exampleParams, DEFAULT_MAX_BUDGET)] ∧
      stCachedAlive.nextId ∈
        (action okEval stCachedAlive exampleParams (some (some 1))).disposedIds) ∧
    ((action okEval stCachedDisposed exampleParams (some (some 5))).cache =
        stCachedDisposed.cache ∧
      (action okEval stCachedDisposed exampleParams (some (some 5))).runs =
        stCachedDisposed.runs ++
          [(stCachedDisposed.nextId, castStatusCode exampleParams, DEFAULT_MAX_BUDGET)] ∧
      stCachedDisposed.nextId ≠ 0 ∧
      stCachedDisposed.nextId ∈
        (action okEval stCachedDisposed exampleParams (some (some 5))).disposedIds) :=
  ⟨(stale_or_missing_entry_fresh okEval stCachedAlive exampleParams 1).1 rfl,
   (stale_or_missing_entry_fresh okEval stCachedDisposed exampleParams 5).2 0 rfl
     (by decide) (by decide)⟩

/-- C4: with an absent store, or a store holding no request context, a
fresh handle is created, the cache is never populated, the fresh handle is
the one evaluated, and it is disposed after use. -/
theorem no_context_fresh (eval : Params → Except String RunResult) (st : WafState)
    (params : Params) (store : Option (Option Ctx))
    (hs : store = none ∨ store = some none) :
    (action eval st params store).cache = st.cache ∧
    (action eval st params store).created = st.created ++ [st.nextId] ∧
    (action eval st params store).runs =
      st.runs ++ [(st.nextId, castStatusCode params, DEFAULT_MAX_BUDGET)] ∧
    st.nextId ∈ (action eval st params store).disposedIds := by
  have ho : obtainHandle st store = createHandle st := by
    rcases hs with rfl | rfl
    · rfl
    · rfl
  refine ⟨?_, ?_, ?_, ?_⟩
  · rw [action_cache, ho]; rfl
  · rw [action_created, ho]; rfl
  · rw [action_runs, ho]; rfl
  · rw [action_disposedIds, ho]
    exact List.mem_append_right _ (List.mem_singleton_self _)

/-- C4, witness: the statement at the empty state with no store at all. -/
theorem no_context_fresh_witness :
    (action okEval st0 exampleParams none).cache = st0.cache ∧
    (action okEval st0 exampleParams none).created = st0.created ++ [st0.nextId] ∧
    (action okEval st0 exampleParams none).runs =
      st0.runs ++ [(st0.nextId, castStatusCode exampleParams, DEFAULT_MAX_BUDGET)] ∧
    st0.nextId ∈ (action okEval st0 exampleParams none).disposedIds :=
  no_context_fresh okEval st0 exampleParams none (Or.inl rfl)

/-- C5: when the engine's evaluate call raises a fault, `action` (a total
function, so it returns without raising) appends exactly the fixed
diagnostic message and the fault to the log — each once — leaves the report
ledger untouched (the Result Interpreter is not invoked), and the handle
used for the call is still disposed. -/
theorem engine_fault_contained (eval : Params → Except String RunResult)
    (st : WafState) (params : Params) (store : Option (Option Ctx)) (e : String)
    (hf : eval (castStatusCode params) = Except.error e) :
    (action eval st params store).logs = st.logs ++ [wafErrorMsg, e] ∧
    (action eval st params store).reports = st.reports ∧
    (obtainHandle st store).1 ∈ (action eval st params store).disposedIds := by
  refine ⟨?_, ?_, action_disposes_handle eval st params store⟩
  · unfold action
    cases h : eval (castStatusCode params) with
    | ok r => rw [h] at hf; simp at hf
    | error e2 =>
      rw [h] at hf
      injection hf with he
      subst he
      dsimp only
      rw [h]
      dsimp only
      rw [(obtainHandle_frame st store).2.2.1]
  · unfold action
    cases h : eval (castStatusCode params) with
    | ok r => rw [h] at hf; simp at hf
    | error e2 =>
      dsimp only
      rw [h]
      dsimp only
      rw [(obtainHandle_frame st store).2.2.2]

/-- C5, witness: the statement at the faulting engine of the test suite. -/
theorem engine_fault_contained_witness :
    (action failEval stCachedAlive exampleParams (some (some 0))).logs =
      stCachedAlive.logs ++ [wafErrorMsg, "Empty params"] ∧
    (action failEval stCachedAlive exampleParams (some (some 0))).reports =
      stCachedAlive.reports ∧
    (obtainHandle stCachedAlive (some (some 0))).1 ∈
      (action failEval stCachedAlive exampleParams (some (some 0))).disposedIds :=
  engine_fault_contained failEval stCachedAlive exampleParams (some (some 0))
    "Empty params" rfl

/-- C6: the address data submitted to the engine is the status-cast
mapping: the numeric value bound to the status-code address is coerced to
its string representation, and every binding with another key — other
numbers and nested structures included — passes through unchanged. -/
theorem status_code_cast (eval : Params → Except String RunResult) (st : WafState)
    (params : Params) (store : Option (Option Ctx)) (n : Int)
    (hn : lookupVal statusAddress params = some (JSValue.num n)) :
    (action eval st params store).runs =
      st.runs ++ [((obtainHandle st store).1, castStatusCode params, DEFAULT_MAX_BUDGET)] ∧
    lookupVal statusAddress (castStatusCode params) =
      some (JSValue.str (toString n)) ∧
    ∀ kv ∈ params, kv.1 ≠ statusAddress → kv ∈ castStatusCode params := by
  have hc : castStatusCode params = params.map (castEntry n) := by
    unfold castStatusCode
    rw [hn]
  refine ⟨action_runs eval st params store, ?_, ?_⟩
  · rw [hc]
    exact lookupVal_cast n params hn
  · intro kv hmem hne
    rw [hc]
    exact mem_cast_of_ne n params kv hmem hne

/-- C6, witness: on the test suite's fixture the engine sees the status 404
as the string 404 and every other binding unchanged. -/
theorem status_code_cast_witness :
    castStatusCode statusParams =
      [("string", JSValue.str "/test"),
       ("server.response.status", JSValue.str "404"),
       ("number", JSValue.num 1337),
       ("object", JSValue.obj [("a", JSValue.num 1), ("b", JSValue.str "2")])] ∧
    lookupVal statusAddress (castStatusCode statusParams) =
      some (JSValue.str (toString (404 : Int))) ∧
    (action okEval stCachedAlive statusParams (some (some 0))).runs =
      stCachedAlive.runs ++
        [((obtainHandle stCachedAlive (some (some 0))).1, castStatusCode statusParams,
          DEFAULT_MAX_BUDGET)] :=
  ⟨rfl,
   (status_code_cast okEval stCachedAlive statusParams (some (some 0)) 404 rfl).2.1,
   (status_code_cast okEval stCachedAlive statusParams (some (some 0)) 404 rfl).1⟩

/-- C7: with an absent or empty serialized match list, `applyResult` is a
no-op; with a non-empty one it forwards the raw payload and the store
unchanged to the reporting collaborator, appending exactly one report. -/
theorem apply_result_reports (st : WafState) (result : RunResult)
    (store : Option (Option Ctx)) :
    ((result.data = none ∨ result.data = some "" ∨ result.data = some "[]") →
      applyResult st result store = st) ∧
    ∀ d, result.data = some d → d ≠ "" → d ≠ "[]" →
      applyResult st result store = { st with reports := st.reports ++ [(d, store)] } := by
  constructor
  · intro h
    unfold applyResult
    rcases h with h | h | h
    · rw [h]
    · rw [h]
      dsimp only
      rw [if_neg (by simp)]
    · rw [h]
      dsimp only
      rw [if_neg (by simp)]
  · intro d hd h1 h2
    unfold applyResult
    rw [hd]
    dsimp only
    rw [if_pos ⟨h1, h2⟩]

/-- C7, witness: an empty serialized match list reports nothing; a
non-empty one is forwarded once with the store unchanged. -/
theorem apply_result_reports_witness :
    applyResult st0 { action := "monitor", data := some "[]" } none = st0 ∧
    applyResult st0 { action := "monitor", data := some "[1]" } (some (some 3)) =
      { st0 with reports := st0.reports ++ [("[1]", some (some 3))] } :=
  ⟨(apply_result_reports st0 { action := "monitor", data := some "[]" } none).1
      (Or.inr (Or.inr rfl)),
   (apply_result_reports st0 { action := "monitor", data := some "[1]" }
      (some (some 3))).2 "[1]" rfl (by decide) (by decide)⟩

/-- C8: `loadDDWAF` over a malformed ruleset propagates the engine's
diagnostic message and logs exactly the fixed message; over a well-formed
ruleset it returns the engine (which, in this embedding, exposes the
`Engine.createContext` and `Engine.dispose` operations) and logs nothing. -/
theorem load_ddwaf_spec (engineNew : RuleSet → Except String Engine) (rules : RuleSet) :
    (∀ msg, engineNew rules = Except.error msg →
      loadDDWAF engineNew rules = (Except.error msg, [loadErrorMsg])) ∧
    (∀ e, engineNew rules = Except.ok e →
      loadDDWAF engineNew rules = (Except.ok e, [])) := by
  constructor
  · intro msg h
    unfold loadDDWAF
    rw [h]
  · intro e h
    unfold loadDDWAF
    rw [h]

/-- C8, witness: the malformed (empty) ruleset raises the diagnostic and
logs the fixed message; the test suite's ruleset loads an engine. -/
theorem load_ddwaf_witness :
    loadDDWAF demoEngineNew [] = (Except.error "Invalid rules", [loadErrorMsg]) ∧
    loadDDWAF demoEngineNew testRules = (Except.ok { engineId := 7 }, []) :=
  ⟨(load_ddwaf_spec demoEngineNew []).1 "Invalid rules" rfl,
   (load_ddwaf_spec demoEngineNew testRules).2 { engineId := 7 } rfl⟩

/-- C9: during subscription building, an address is registered in some
subscription exactly when it is a recognized address that occurs (after
normalization) among the ruleset's condition inputs — so unknown or invalid
address names are silently excluded without rejecting the rule, and no
subscription is ever registered for an unrecognized address. -/
theorem invalid_addresses_excluded (rules : RuleSet) (a : String) :
    (∃ s ∈ buildSubscriptions rules, a ∈ s.addresses) ↔
      a ∈ validAddresses ∧ a ∈ allInputAddresses rules := by
  unfold buildSubscriptions
  constructor
  · rintro ⟨s, hs, ha⟩
    rcases List.mem_map.mp hs with ⟨b, hb, rfl⟩
    rcases List.mem_singleton.mp ha with rfl
    have h2 := (mem_dedupValid a (allInputAddresses rules) []).mp hb
    exact ⟨h2.2.1, h2.1⟩
  · rintro ⟨hv, hmem⟩
    refine ⟨⟨[a], 0⟩, List.mem_map.mpr ⟨a, ?_, rfl⟩, List.mem_singleton_self _⟩
    exact (mem_dedupValid a (allInputAddresses rules) []).mpr
      ⟨hmem, hv, List.not_mem_nil a⟩

/-- C10: `clear()` disposes the engine instance exactly once, replaces the
per-request handle cache so that every lookup now misses, and invokes the
gateway's per-request clear exactly once; it does not touch the handle
ledgers themselves. -/
theorem clear_teardown (st : WafState) (k : Ctx) :
    (clear st).engineDisposeCount = st.engineDisposeCount + 1 ∧
    (clear st).gatewayClearCount = st.gatewayClearCount + 1 ∧
    cacheLookup k (clear st).cache = none ∧
    (clear st).created = st.created ∧
    (clear st).disposedIds = st.disposedIds := by
  exact ⟨rfl, rfl, rfl, rfl, rfl⟩

end DDWaf
